import Mathlib

/-!
# kboot aarch64 load-address and firmware memory-map recovery

A shallow embedding of `stand/kboot/arch/aarch64/load_addr.c`:

* `do_memory_from_fdt`  reads the five `/chosen` properties and stages the
  memory-map header;
* `enumerate_memory_arch`  the orchestrator around it;
* `kboot_get_phys_load_segment`  the memoised load-address query.

Globals and the function-local static `s` are fields of `State`.  Every call
to an external collaborator appends an `Event` to `State.trace`; what the
collaborator answers is read from `Host` (file, allocator, device-tree
library) or from the `first_avail` argument.  A write through a pointer is
checked against the object the pointer was obtained from: a call that leaves
the object ends in `Outcome.fault` instead of returning.
-/

namespace Kboot

/-! ## Data model -/

/-- Calls made to external collaborators, recorded in program order. -/
inductive Event where
  | open_file (path : String) (flags : Nat)
  | close (fd : Int)
  | malloc (size : Nat) (ptr : Nat)
  | free (ptr : Nat)
  | bzero (addr : Nat) (len : Nat)
  | printf (fmt : String) (args : List Nat)
  | populate_avail_from_iomem
  | print_avail
  | first_avail (align : Nat) (min_size : Nat) (type : Nat)
  deriving DecidableEq

/-- The fields of `struct efi_map_header` written by the loader. -/
structure efi_map_header where
  memory_size : Nat
  descriptor_size : Nat
  descriptor_version : Nat
  deriving DecidableEq

/-- File-scope globals of `load_addr.c`, the static `s` of
`kboot_get_phys_load_segment`, the byte memory, the typed view of header
objects by address, and the log of external calls. -/
structure State where
  efi_systbl_phys : Nat
  efi_map_hdr : Nat
  efi_map_size : Nat
  efi_map_phys_src : Nat
  efi_map_phys_dst : Nat
  s : Nat
  mem : Nat → Nat
  hdr : Nat → efi_map_header
  trace : List Event

/-- Answers of the host interfaces used while reading the device tree.
Pointers are addresses, `0` is `NULL`; `fdt_getprop` answers the offset of
the property value inside `buf`, `none` is `NULL`. -/
structure Host where
  open_rv : Int
  fstat_rv : Int → Int
  st_size : Int → Int
  malloc_buf : Nat
  read_rv : Int → Int
  buf : Nat → Nat
  fdt_path_offset : String → Int
  fdt_getprop : Int → String → Option Nat
  malloc_map : Nat

/-! ## Machine integers -/

/-- Conversion of a signed value to `size_t` (64 bit). -/
def to_size_t (x : Int) : Nat := (x % 2 ^ 64).toNat

/-- Conversion of a signed value to `int` (32 bit, two's complement). -/
def to_int (x : Int) : Int := (x + 2 ^ 31) % 2 ^ 32 - 2 ^ 31

/-- Value of `*p` for a `const uint32_t *p` at offset `p` of `buf`
(little-endian host). -/
def load32 (buf : Nat → Nat) (p : Nat) : Nat :=
  buf p % 256 + buf (p + 1) % 256 * 2 ^ 8 + buf (p + 2) % 256 * 2 ^ 16
    + buf (p + 3) % 256 * 2 ^ 24

/-- Value of `*p` for a `const uint64_t *p` at offset `p` of `buf`
(little-endian host). -/
def load64 (buf : Nat → Nat) (p : Nat) : Nat :=
  buf p % 256 + buf (p + 1) % 256 * 2 ^ 8 + buf (p + 2) % 256 * 2 ^ 16
    + buf (p + 3) % 256 * 2 ^ 24 + buf (p + 4) % 256 * 2 ^ 32
    + buf (p + 5) % 256 * 2 ^ 40 + buf (p + 6) % 256 * 2 ^ 48
    + buf (p + 7) % 256 * 2 ^ 56

/-- Byte `n` of the in-memory representation of `x` (little-endian host). -/
def EXTRACT_BYTE (x n : Nat) : Nat := x / 2 ^ (8 * n) % 256

/-- Modelled from the spec: `fdt32_to_cpu` (libfdt, not in this file)
converts a 32-bit value from the device tree's big-endian encoding to host
byte order: the first byte in memory is the most significant. -/
def fdt32_to_cpu (x : Nat) : Nat :=
  EXTRACT_BYTE x 0 * 2 ^ 24 + EXTRACT_BYTE x 1 * 2 ^ 16 + EXTRACT_BYTE x 2 * 2 ^ 8
    + EXTRACT_BYTE x 3

/-- Modelled from the spec: `fdt64_to_cpu` (libfdt, not in this file)
converts a 64-bit value from the device tree's big-endian encoding to host
byte order: the first byte in memory is the most significant. -/
def fdt64_to_cpu (x : Nat) : Nat :=
  EXTRACT_BYTE x 0 * 2 ^ 56 + EXTRACT_BYTE x 1 * 2 ^ 48 + EXTRACT_BYTE x 2 * 2 ^ 40
    + EXTRACT_BYTE x 3 * 2 ^ 32 + EXTRACT_BYTE x 4 * 2 ^ 24 + EXTRACT_BYTE x 5 * 2 ^ 16
    + EXTRACT_BYTE x 6 * 2 ^ 8 + EXTRACT_BYTE x 7

/-- The padded header size `efisz = (sizeof(*efihdr) + 0xf) & ~0xf`: computed
in `size_t`, stored in a `uint32_t`.  `sizeof_efihdr` is
`sizeof(struct efi_map_header)`, declared in `sys/efi.h`. -/
def efisz (sizeof_efihdr : Nat) : Nat :=
  (((sizeof_efihdr + 0xf) % 2 ^ 64) &&& (2 ^ 64 - 1 - 0xf)) % 2 ^ 32

/-! ## State updates -/

/-- How a call ends: it returns `rv` in state `st`, or it writes outside the
object its pointer points into.  Such a write is undefined behaviour in C and
the call does not return; `st` is then the state at the offending write. -/
inductive Outcome (α : Type) where
  | returned (rv : α) (st : State)
  | fault (st : State)

/-- The value returned, `none` after a fault. -/
def Outcome.rv? {α : Type} : Outcome α → Option α
  | Outcome.returned rv _ => some rv
  | Outcome.fault _ => none

/-- The state at the return, or at the fault. -/
def Outcome.state {α : Type} : Outcome α → State
  | Outcome.returned _ st => st
  | Outcome.fault st => st

/-- Append one external call to the log. -/
def State.emit (st : State) (e : Event) : State :=
  { st with trace := st.trace ++ [e] }

/-- The call `bzero(addr, len)`, where `addr` points into the object of `size`
bytes allocated at `base`: clears `len` bytes from `addr`.  When a byte to
clear lies outside the object the call overruns the buffer and faults. -/
def bzero (base size addr len : Nat) (st : State) : Outcome Unit :=
  let st := st.emit (Event.bzero addr len)
  if len = 0 ∨ (base ≤ addr ∧ addr + len ≤ base + size) then
    Outcome.returned ()
      { st with mem := fun a => if addr ≤ a ∧ a < addr + len then 0 else st.mem a }
  else Outcome.fault st

/-- Store to one field of the header object at address `p`, the start of an
allocated object of `size` bytes.  When the `sizeof_efihdr` bytes of the
header do not fit in the object the store faults. -/
def State.store_hdr (st : State) (size sizeof_efihdr p : Nat)
    (f : efi_map_header → efi_map_header) : Outcome Unit :=
  if sizeof_efihdr ≤ size then
    Outcome.returned () { st with hdr := fun a => if a = p then f (st.hdr a) else st.hdr a }
  else Outcome.fault st

/-! ## do_memory_from_fdt -/

/-- The label `errout`: `free(buf); return false;`. -/
def errout (buf : Nat) (st : State) : Outcome Bool :=
  Outcome.returned false (st.emit (Event.free buf))

/-- The function `do_memory_from_fdt(fd)`. -/
def do_memory_from_fdt (sizeof_efihdr : Nat) (h : Host) (fd : Int) (st : State) :
    Outcome Bool :=
  if h.fstat_rv fd < 0 then Outcome.returned false st else
  let buf := h.malloc_buf
  let st := st.emit (Event.malloc (to_size_t (h.st_size fd)) buf)
  if buf = 0 then Outcome.returned false st else
  let len := to_int (h.read_rv fd)
  if len ≤ 0 then errout buf st else
  let offset := h.fdt_path_offset "/chosen"
  if offset ≤ 0 then errout buf st else
  match h.fdt_getprop offset "linux,uefi-system-table" with
  | none => errout buf st
  | some u64p =>
  let st := { st with efi_systbl_phys := fdt64_to_cpu (load64 h.buf u64p) }
  match h.fdt_getprop offset "linux,uefi-mmap-desc-ver" with
  | none => errout buf st
  | some u32p =>
  let ver := fdt32_to_cpu (load32 h.buf u32p)
  match h.fdt_getprop offset "linux,uefi-mmap-desc-size" with
  | none => errout buf st
  | some u32p =>
  let esz := fdt32_to_cpu (load32 h.buf u32p)
  match h.fdt_getprop offset "linux,uefi-mmap-size" with
  | none => errout buf st
  | some u32p =>
  let sz := fdt32_to_cpu (load32 h.buf u32p)
  match h.fdt_getprop offset "linux,uefi-mmap-start" with
  | none => errout buf st
  | some u64p =>
  let mmap_pa := fdt64_to_cpu (load64 h.buf u64p)
  let st := st.emit (Event.free buf)
  let st := st.emit
    (Event.printf "UEFI MMAP: Ver %d Ent Size %d Tot Size %d PA %#lx\n" [ver, esz, sz, mmap_pa])
  let efisz := efisz sizeof_efihdr
  let size := (sz + efisz) % 2 ^ 32
  let buf := h.malloc_map
  let st := st.emit (Event.malloc size buf)
  if buf = 0 then Outcome.returned false st else
  let efihdr := buf
  let map := efihdr + efisz
  match bzero buf size map sz st with
  | Outcome.fault st => Outcome.fault st
  | Outcome.returned _ st =>
  match st.store_hdr size sizeof_efihdr efihdr (fun x => { x with memory_size := sz }) with
  | Outcome.fault st => Outcome.fault st
  | Outcome.returned _ st =>
  match st.store_hdr size sizeof_efihdr efihdr (fun x => { x with descriptor_size := esz }) with
  | Outcome.fault st => Outcome.fault st
  | Outcome.returned _ st =>
  match st.store_hdr size sizeof_efihdr efihdr
      (fun x => { x with descriptor_version := ver }) with
  | Outcome.fault st => Outcome.fault st
  | Outcome.returned _ st =>
  let st := { st with efi_map_phys_src := mmap_pa }
  let st := { st with efi_map_hdr := efihdr }
  let st := { st with efi_map_size := (sz + efisz) % 2 ^ 32 }
  Outcome.returned true st

/-! ## enumerate_memory_arch -/

/-- The constant `O_RDONLY`. -/
def O_RDONLY : Nat := 0

/-- The function `enumerate_memory_arch()`. -/
def enumerate_memory_arch (sizeof_efihdr : Nat) (h : Host) (st : State) : Outcome Bool :=
  let st := st.emit (Event.open_file "host:/sys/firmware/fdt" O_RDONLY)
  let fd := h.open_rv
  let r : Outcome Bool :=
    if fd ≠ -1 then
      match do_memory_from_fdt sizeof_efihdr h fd st with
      | Outcome.fault st => Outcome.fault st
      | Outcome.returned rv st => Outcome.returned rv (st.emit (Event.close fd))
    else Outcome.returned false st
  match r with
  | Outcome.fault st => Outcome.fault st
  | Outcome.returned rv st =>
  let st :=
    if !rv then
      st.emit (Event.printf "Could not obtain UEFI memory tables, expect failure\n" [])
    else st
  let st := st.emit Event.populate_avail_from_iomem
  let st := st.emit Event.print_avail
  Outcome.returned true st

/-! ## kboot_get_phys_load_segment -/

/-- The constant `HOLE_SIZE`, `64ul << 20`. -/
def HOLE_SIZE : Nat := (64 <<< 20) % 2 ^ 64

/-- The constant `KERN_ALIGN`, `2ul << 20`. -/
def KERN_ALIGN : Nat := (2 <<< 20) % 2 ^ 64

/-- The function `kboot_get_phys_load_segment()`.  `SYSTEM_RAM` is the
region class constant of `kboot.h`; `first_avail` is the external allocator,
whose answer may depend on everything that happened before the query. -/
def kboot_get_phys_load_segment (SYSTEM_RAM : Nat)
    (first_avail : List Event → Nat → Nat → Nat → Nat) (st : State) : Nat × State :=
  if st.s ≠ 0 then (st.s, st) else
  let a := first_avail st.trace KERN_ALIGN HOLE_SIZE SYSTEM_RAM
  let st := st.emit (Event.first_avail KERN_ALIGN HOLE_SIZE SYSTEM_RAM)
  let st := { st with s := a }
  if st.s ≠ 0 then (st.s, st) else
  let st := { st with s := 0x40000000 ||| 0x4200000 }
  let st := st.emit (Event.printf "Falling back to crazy address %#lx\n" [st.s])
  (st.s, st)

/-- The function `kboot_get_phys_load_segment()` called `n` times in a row:
the values returned, in order, and the final state. -/
def repeat_calls (SYSTEM_RAM : Nat) (first_avail : List Event → Nat → Nat → Nat → Nat) :
    Nat → State → List Nat × State
  | 0, st => ([], st)
  | n + 1, st =>
    let r := kboot_get_phys_load_segment SYSTEM_RAM first_avail st
    let rest := repeat_calls SYSTEM_RAM first_avail n r.2
    (r.1 :: rest.1, rest.2)

/-! ## Vocabulary of the specification -/

/-- Rounding `x` up to the next multiple of `a`. -/
def round_up (x a : Nat) : Nat := (x + (a - 1)) / a * a

/-- The big-endian encoding of a 32-bit value, as stored in a device tree. -/
def be32_encode (v : Nat) : List Nat :=
  [v / 2 ^ 24 % 256, v / 2 ^ 16 % 256, v / 2 ^ 8 % 256, v % 256]

/-- The big-endian encoding of a 64-bit value, as stored in a device tree. -/
def be64_encode (v : Nat) : List Nat :=
  [v / 2 ^ 56 % 256, v / 2 ^ 48 % 256, v / 2 ^ 40 % 256, v / 2 ^ 32 % 256,
   v / 2 ^ 24 % 256, v / 2 ^ 16 % 256, v / 2 ^ 8 % 256, v % 256]

/-- The `n` bytes of `buf` from offset `p`. -/
def bytes_at (buf : Nat → Nat) (p n : Nat) : List Nat :=
  (List.range n).map (fun i => buf (p + i))

/-- Replay of the `malloc`/`free` calls of an event list on the list of live
allocations: a successful `malloc` adds its pointer, `free(NULL)` does
nothing, `free` of a live pointer removes it, and `free` of any other pointer
(a double or wild free) is an error, `none`. -/
def heap_run : List Event → List Nat → Option (List Nat)
  | [], live => some live
  | Event.malloc _ p :: es, live =>
    if p = 0 then heap_run es live else heap_run es (p :: live)
  | Event.free p :: es, live =>
    if p = 0 then heap_run es live
    else if p ∈ live then heap_run es (live.erase p) else none
  | _ :: es, live => heap_run es live

/-- The published bookkeeping of firmware-map recovery. -/
def bookkeeping (st : State) : Nat × Nat × Nat × Nat :=
  (st.efi_systbl_phys, st.efi_map_hdr, st.efi_map_size, st.efi_map_phys_src)

/-! ## Sample inputs -/

/-- A host whose device-tree file reads as `blob` and whose `/chosen` node, at
offset 8, has the properties listed by `props`; both allocations succeed. -/
def sample_host (blob : List Nat) (props : String → Option Nat) : Host where
  open_rv := 3
  fstat_rv := fun _ => 0
  st_size := fun _ => blob.length
  malloc_buf := 4096
  read_rv := fun _ => blob.length
  buf := fun i => blob.getD i 0
  fdt_path_offset := fun path => if path = "/chosen" then 8 else -1
  fdt_getprop := fun offset name => if offset = 8 then props name else none
  malloc_map := 8192

/-- All five required properties, at offsets 0, 8, 12, 16 and 20 of the blob. -/
def five_props (name : String) : Option Nat :=
  if name = "linux,uefi-system-table" then some 0
  else if name = "linux,uefi-mmap-desc-ver" then some 8
  else if name = "linux,uefi-mmap-desc-size" then some 12
  else if name = "linux,uefi-mmap-size" then some 16
  else if name = "linux,uefi-mmap-start" then some 20
  else none

/-- Only `linux,uefi-system-table` is present. -/
def systbl_only (name : String) : Option Nat :=
  if name = "linux,uefi-system-table" then some 0 else none

/-- The property values of a blob: system table, version, descriptor size,
map size, map address, each big-endian. -/
def sample_blob (t v e s p : Nat) : List Nat :=
  be64_encode t ++ be32_encode v ++ be32_encode e ++ be32_encode s ++ be64_encode p

/-- A state before the first call: nothing published, `s` zero. -/
def initial_state : State where
  efi_systbl_phys := 0
  efi_map_hdr := 0
  efi_map_size := 0
  efi_map_phys_src := 0
  efi_map_phys_dst := 0
  s := 0
  mem := fun _ => 0xAA
  hdr := fun _ => ⟨0, 0, 0⟩
  trace := []

end Kboot

namespace Kboot

/-! ## Arithmetic of the padded header size and of the byte order -/

theorem and_not_0xf (x : Nat) (hx : x < 2 ^ 64) : x &&& (2 ^ 64 - 1 - 0xf) = x / 16 * 16 := by
  have hm : (2 ^ 64 - 1 - 0xf : Nat) = (2 ^ 60 - 1) <<< 4 := by decide
  have hd : x / 16 * 16 = (x >>> 4) <<< 4 := by
    rw [Nat.shiftLeft_eq, Nat.shiftRight_eq_div_pow]
  rw [hm, hd]
  apply Nat.eq_of_testBit_eq
  intro i
  simp only [Nat.testBit_and, Nat.testBit_shiftLeft, Nat.testBit_shiftRight,
    Nat.testBit_two_pow_sub_one]
  by_cases h4 : 4 ≤ i
  · have e : 4 + (i - 4) = i := by omega
    simp only [h4, ge_iff_le, decide_True, Bool.true_and, e]
    by_cases h64 : i < 64
    · have : i - 4 < 60 := by omega
      simp [this]
    · have : ¬ (i - 4 < 60) := by omega
      have hlt : x < 2 ^ i := lt_of_lt_of_le hx (Nat.pow_le_pow_right (by norm_num) (by omega))
      simp [this, Nat.testBit_lt_two_pow hlt]
  · simp [h4]

theorem efisz_lt (n : Nat) : efisz n < 2 ^ 32 := by
  unfold efisz
  exact Nat.mod_lt _ (by norm_num)

theorem efisz_eq_round_up (n : Nat) (hn : n ≤ 2 ^ 32 - 16) : efisz n = round_up n 16 := by
  have h1 : (n + 0xf) % 2 ^ 64 = n + 15 := by
    apply Nat.mod_eq_of_lt
    simp only [Nat.reducePow, Nat.reduceSub] at hn ⊢
    omega
  have h2 : n + 15 < 2 ^ 64 := by
    simp only [Nat.reducePow, Nat.reduceSub] at hn ⊢
    omega
  unfold efisz round_up
  rw [h1, and_not_0xf _ h2]
  apply Nat.mod_eq_of_lt
  simp only [Nat.reducePow, Nat.reduceSub] at hn ⊢
  omega

theorem fdt32_to_cpu_bytes (c0 c1 c2 c3 : Nat) (h0 : c0 < 256) (h1 : c1 < 256)
    (h2 : c2 < 256) (h3 : c3 < 256) :
    fdt32_to_cpu (c0 + c1 * 2 ^ 8 + c2 * 2 ^ 16 + c3 * 2 ^ 24)
      = c0 * 2 ^ 24 + c1 * 2 ^ 16 + c2 * 2 ^ 8 + c3 := by
  unfold fdt32_to_cpu EXTRACT_BYTE
  simp only [Nat.reducePow, Nat.reduceMul]
  omega

theorem extract_byte_64 (c0 c1 c2 c3 c4 c5 c6 c7 : Nat) (h0 : c0 < 256) (h1 : c1 < 256)
    (h2 : c2 < 256) (h3 : c3 < 256) (h4 : c4 < 256) (h5 : c5 < 256) (h6 : c6 < 256)
    (h7 : c7 < 256) :
    (c0 + c1 * 2 ^ 8 + c2 * 2 ^ 16 + c3 * 2 ^ 24 + c4 * 2 ^ 32 + c5 * 2 ^ 40
      + c6 * 2 ^ 48 + c7 * 2 ^ 56) / 2 ^ (8 * 0) % 256 = c0 ∧
    (c0 + c1 * 2 ^ 8 + c2 * 2 ^ 16 + c3 * 2 ^ 24 + c4 * 2 ^ 32 + c5 * 2 ^ 40
      + c6 * 2 ^ 48 + c7 * 2 ^ 56) / 2 ^ (8 * 1) % 256 = c1 ∧
    (c0 + c1 * 2 ^ 8 + c2 * 2 ^ 16 + c3 * 2 ^ 24 + c4 * 2 ^ 32 + c5 * 2 ^ 40
      + c6 * 2 ^ 48 + c7 * 2 ^ 56) / 2 ^ (8 * 2) % 256 = c2 ∧
    (c0 + c1 * 2 ^ 8 + c2 * 2 ^ 16 + c3 * 2 ^ 24 + c4 * 2 ^ 32 + c5 * 2 ^ 40
      + c6 * 2 ^ 48 + c7 * 2 ^ 56) / 2 ^ (8 * 3) % 256 = c3 ∧
    (c0 + c1 * 2 ^ 8 + c2 * 2 ^ 16 + c3 * 2 ^ 24 + c4 * 2 ^ 32 + c5 * 2 ^ 40
      + c6 * 2 ^ 48 + c7 * 2 ^ 56) / 2 ^ (8 * 4) % 256 = c4 ∧
    (c0 + c1 * 2 ^ 8 + c2 * 2 ^ 16 + c3 * 2 ^ 24 + c4 * 2 ^ 32 + c5 * 2 ^ 40
      + c6 * 2 ^ 48 + c7 * 2 ^ 56) / 2 ^ (8 * 5) % 256 = c5 ∧
    (c0 + c1 * 2 ^ 8 + c2 * 2 ^ 16 + c3 * 2 ^ 24 + c4 * 2 ^ 32 + c5 * 2 ^ 40
      + c6 * 2 ^ 48 + c7 * 2 ^ 56) / 2 ^ (8 * 6) % 256 = c6 ∧
    (c0 + c1 * 2 ^ 8 + c2 * 2 ^ 16 + c3 * 2 ^ 24 + c4 * 2 ^ 32 + c5 * 2 ^ 40
      + c6 * 2 ^ 48 + c7 * 2 ^ 56) / 2 ^ (8 * 7) % 256 = c7 := by
  refine ⟨?_, ?_, ?_, ?_, ?_, ?_, ?_, ?_⟩ <;> simp only [Nat.reducePow, Nat.reduceMul] <;> omega

theorem fdt64_to_cpu_bytes (c0 c1 c2 c3 c4 c5 c6 c7 : Nat) (h0 : c0 < 256) (h1 : c1 < 256)
    (h2 : c2 < 256) (h3 : c3 < 256) (h4 : c4 < 256) (h5 : c5 < 256) (h6 : c6 < 256)
    (h7 : c7 < 256) :
    fdt64_to_cpu (c0 + c1 * 2 ^ 8 + c2 * 2 ^ 16 + c3 * 2 ^ 24 + c4 * 2 ^ 32 + c5 * 2 ^ 40
      + c6 * 2 ^ 48 + c7 * 2 ^ 56)
      = c0 * 2 ^ 56 + c1 * 2 ^ 48 + c2 * 2 ^ 40 + c3 * 2 ^ 32 + c4 * 2 ^ 24 + c5 * 2 ^ 16
        + c6 * 2 ^ 8 + c7 := by
  obtain ⟨e0, e1, e2, e3, e4, e5, e6, e7⟩ :=
    extract_byte_64 c0 c1 c2 c3 c4 c5 c6 c7 h0 h1 h2 h3 h4 h5 h6 h7
  unfold fdt64_to_cpu EXTRACT_BYTE
  rw [e0, e1, e2, e3, e4, e5, e6, e7]

theorem fdt32_to_cpu_load32 (buf : Nat → Nat) (p v : Nat) (hv : v < 2 ^ 32)
    (hb : bytes_at buf p 4 = be32_encode v) : fdt32_to_cpu (load32 buf p) = v := by
  have hm : ∀ x : Nat, x % 256 < 256 := fun x => Nat.mod_lt x (by decide)
  have key := fdt32_to_cpu_bytes (buf p % 256) (buf (p + 1) % 256) (buf (p + 2) % 256)
    (buf (p + 3) % 256) (hm _) (hm _) (hm _) (hm _)
  simp only [bytes_at, be32_encode, List.range, List.range.loop, List.map_cons, List.map_nil,
    List.cons.injEq, and_true, Nat.add_zero] at hb
  obtain ⟨h0, h1, h2, h3⟩ := hb
  unfold load32
  rw [key, h0, h1, h2, h3]
  clear key h0 h1 h2 h3 hm
  simp only [Nat.mod_mod, Nat.reducePow] at hv ⊢
  omega

theorem fdt64_to_cpu_load64 (buf : Nat → Nat) (p v : Nat) (hv : v < 2 ^ 64)
    (hb : bytes_at buf p 8 = be64_encode v) : fdt64_to_cpu (load64 buf p) = v := by
  have hm : ∀ x : Nat, x % 256 < 256 := fun x => Nat.mod_lt x (by decide)
  have key := fdt64_to_cpu_bytes (buf p % 256) (buf (p + 1) % 256) (buf (p + 2) % 256)
    (buf (p + 3) % 256) (buf (p + 4) % 256) (buf (p + 5) % 256) (buf (p + 6) % 256)
    (buf (p + 7) % 256) (hm _) (hm _) (hm _) (hm _) (hm _) (hm _) (hm _) (hm _)
  simp only [bytes_at, be64_encode, List.range, List.range.loop, List.map_cons, List.map_nil,
    List.cons.injEq, and_true, Nat.add_zero] at hb
  obtain ⟨h0, h1, h2, h3, h4, h5, h6, h7⟩ := hb
  unfold load64
  rw [key, h0, h1, h2, h3, h4, h5, h6, h7]
  clear key h0 h1 h2 h3 h4 h5 h6 h7 hm
  simp only [Nat.mod_mod, Nat.reducePow] at hv ⊢
  omega

end Kboot

namespace Kboot

/-! ## The paths through do_memory_from_fdt -/

theorem State.emit_trace (st : State) (e : Event) : (st.emit e).trace = st.trace ++ [e] := rfl

/-- The state left by the successful path, written out. -/
theorem do_memory_from_fdt_ok (n : Nat) (h : Host) (fd : Int) (st : State)
    (p1 p2 p3 p4 p5 : Nat)
    (hs : ¬ h.fstat_rv fd < 0) (hb : h.malloc_buf ≠ 0) (hl : ¬ to_int (h.read_rv fd) ≤ 0)
    (ho : ¬ h.fdt_path_offset "/chosen" ≤ 0)
    (g1 : h.fdt_getprop (h.fdt_path_offset "/chosen") "linux,uefi-system-table" = some p1)
    (g2 : h.fdt_getprop (h.fdt_path_offset "/chosen") "linux,uefi-mmap-desc-ver" = some p2)
    (g3 : h.fdt_getprop (h.fdt_path_offset "/chosen") "linux,uefi-mmap-desc-size" = some p3)
    (g4 : h.fdt_getprop (h.fdt_path_offset "/chosen") "linux,uefi-mmap-size" = some p4)
    (g5 : h.fdt_getprop (h.fdt_path_offset "/chosen") "linux,uefi-mmap-start" = some p5)
    (hm : h.malloc_map ≠ 0)
    (hbz : fdt32_to_cpu (load32 h.buf p4) = 0
      ∨ efisz n + fdt32_to_cpu (load32 h.buf p4)
          ≤ (fdt32_to_cpu (load32 h.buf p4) + efisz n) % 2 ^ 32)
    (hh : n ≤ (fdt32_to_cpu (load32 h.buf p4) + efisz n) % 2 ^ 32) :
    do_memory_from_fdt n h fd st =
      Outcome.returned true
       { efi_systbl_phys := fdt64_to_cpu (load64 h.buf p1)
         efi_map_hdr := h.malloc_map
         efi_map_size := (fdt32_to_cpu (load32 h.buf p4) + efisz n) % 2 ^ 32
         efi_map_phys_src := fdt64_to_cpu (load64 h.buf p5)
         efi_map_phys_dst := st.efi_map_phys_dst
         s := st.s
         mem := fun a =>
           if h.malloc_map + efisz n ≤ a
              ∧ a < h.malloc_map + efisz n + fdt32_to_cpu (load32 h.buf p4) then 0
           else st.mem a
         hdr := fun a =>
           if a = h.malloc_map then
             ⟨fdt32_to_cpu (load32 h.buf p4), fdt32_to_cpu (load32 h.buf p3),
              fdt32_to_cpu (load32 h.buf p2)⟩
           else st.hdr a
         trace := st.trace ++
           [Event.malloc (to_size_t (h.st_size fd)) h.malloc_buf,
            Event.free h.malloc_buf,
            Event.printf "UEFI MMAP: Ver %d Ent Size %d Tot Size %d PA %#lx\n"
              [fdt32_to_cpu (load32 h.buf p2), fdt32_to_cpu (load32 h.buf p3),
               fdt32_to_cpu (load32 h.buf p4), fdt64_to_cpu (load64 h.buf p5)],
            Event.malloc ((fdt32_to_cpu (load32 h.buf p4) + efisz n) % 2 ^ 32) h.malloc_map,
            Event.bzero (h.malloc_map + efisz n) (fdt32_to_cpu (load32 h.buf p4))] } := by
  have hc : fdt32_to_cpu (load32 h.buf p4) = 0
      ∨ (h.malloc_map ≤ h.malloc_map + efisz n
        ∧ h.malloc_map + efisz n + fdt32_to_cpu (load32 h.buf p4)
            ≤ h.malloc_map + (fdt32_to_cpu (load32 h.buf p4) + efisz n) % 2 ^ 32) := by
    rcases hbz with hz | hz
    · exact Or.inl hz
    · exact Or.inr ⟨Nat.le_add_right _ _, by omega⟩
  unfold do_memory_from_fdt
  simp only [hs, hb, hl, ho, g1, g2, g3, g4, g5, hm, hc, hh, if_false, if_true, State.emit,
    bzero, State.store_hdr, List.append_assoc, List.singleton_append, List.cons_append,
    List.nil_append]
  congr 2
  funext a
  by_cases ha : a = h.malloc_map <;> simp [ha]

/-- A call that answers `true` went through every check, and its writes
stayed inside the staged buffer. -/
theorem do_memory_from_fdt_true (n : Nat) (h : Host) (fd : Int) (st : State)
    (hok : (do_memory_from_fdt n h fd st).rv? = some true) :
    ¬ h.fstat_rv fd < 0 ∧ h.malloc_buf ≠ 0 ∧ ¬ to_int (h.read_rv fd) ≤ 0
      ∧ ¬ h.fdt_path_offset "/chosen" ≤ 0 ∧ h.malloc_map ≠ 0
      ∧ ∃ p1 p2 p3 p4 p5,
        h.fdt_getprop (h.fdt_path_offset "/chosen") "linux,uefi-system-table" = some p1
        ∧ h.fdt_getprop (h.fdt_path_offset "/chosen") "linux,uefi-mmap-desc-ver" = some p2
        ∧ h.fdt_getprop (h.fdt_path_offset "/chosen") "linux,uefi-mmap-desc-size" = some p3
        ∧ h.fdt_getprop (h.fdt_path_offset "/chosen") "linux,uefi-mmap-size" = some p4
        ∧ h.fdt_getprop (h.fdt_path_offset "/chosen") "linux,uefi-mmap-start" = some p5
        ∧ (fdt32_to_cpu (load32 h.buf p4) = 0
            ∨ efisz n + fdt32_to_cpu (load32 h.buf p4)
                ≤ (fdt32_to_cpu (load32 h.buf p4) + efisz n) % 2 ^ 32)
        ∧ n ≤ (fdt32_to_cpu (load32 h.buf p4) + efisz n) % 2 ^ 32 := by
  by_cases hs : h.fstat_rv fd < 0
  · simp [do_memory_from_fdt, hs, Outcome.rv?] at hok
  by_cases hb : h.malloc_buf = 0
  · simp [do_memory_from_fdt, hs, hb, Outcome.rv?] at hok
  by_cases hl : to_int (h.read_rv fd) ≤ 0
  · simp [do_memory_from_fdt, hs, hb, hl, errout, Outcome.rv?] at hok
  by_cases ho : h.fdt_path_offset "/chosen" ≤ 0
  · simp [do_memory_from_fdt, hs, hb, hl, ho, errout, Outcome.rv?] at hok
  cases g1 : h.fdt_getprop (h.fdt_path_offset "/chosen") "linux,uefi-system-table" with
  | none => simp [do_memory_from_fdt, hs, hb, hl, ho, g1, errout, Outcome.rv?] at hok
  | some p1 =>
  cases g2 : h.fdt_getprop (h.fdt_path_offset "/chosen") "linux,uefi-mmap-desc-ver" with
  | none => simp [do_memory_from_fdt, hs, hb, hl, ho, g1, g2, errout, Outcome.rv?] at hok
  | some p2 =>
  cases g3 : h.fdt_getprop (h.fdt_path_offset "/chosen") "linux,uefi-mmap-desc-size" with
  | none => simp [do_memory_from_fdt, hs, hb, hl, ho, g1, g2, g3, errout, Outcome.rv?] at hok
  | some p3 =>
  cases g4 : h.fdt_getprop (h.fdt_path_offset "/chosen") "linux,uefi-mmap-size" with
  | none =>
    simp [do_memory_from_fdt, hs, hb, hl, ho, g1, g2, g3, g4, errout, Outcome.rv?] at hok
  | some p4 =>
  cases g5 : h.fdt_getprop (h.fdt_path_offset "/chosen") "linux,uefi-mmap-start" with
  | none =>
    simp [do_memory_from_fdt, hs, hb, hl, ho, g1, g2, g3, g4, g5, errout, Outcome.rv?] at hok
  | some p5 =>
  by_cases hm : h.malloc_map = 0
  · simp [do_memory_from_fdt, hs, hb, hl, ho, g1, g2, g3, g4, g5, hm, Outcome.rv?] at hok
  by_cases hc : fdt32_to_cpu (load32 h.buf p4) = 0
      ∨ (h.malloc_map ≤ h.malloc_map + efisz n
        ∧ h.malloc_map + efisz n + fdt32_to_cpu (load32 h.buf p4)
            ≤ h.malloc_map + (fdt32_to_cpu (load32 h.buf p4) + efisz n) % 2 ^ 32)
  · by_cases hh : n ≤ (fdt32_to_cpu (load32 h.buf p4) + efisz n) % 2 ^ 32
    · refine ⟨hs, hb, hl, ho, hm, p1, p2, p3, p4, p5, rfl, rfl, rfl, rfl, rfl, ?_, hh⟩
      rcases hc with hz | ⟨_, hz⟩
      · exact Or.inl hz
      · exact Or.inr (by omega)
    · unfold do_memory_from_fdt at hok
      simp only [hs, hb, hl, ho, g1, g2, g3, g4, g5, hm, hc, hh, if_false, if_true, bzero,
        State.store_hdr] at hok
      simp [Outcome.rv?] at hok
  · unfold do_memory_from_fdt at hok
    simp only [hs, hb, hl, ho, g1, g2, g3, g4, g5, hm, hc, if_false, bzero] at hok
    simp [Outcome.rv?] at hok

end Kboot

namespace Kboot

/-- The external calls of one `do_memory_from_fdt`, by outcome. -/
theorem do_memory_from_fdt_trace (n : Nat) (h : Host) (fd : Int) (st : State) :
    ∃ evs, (do_memory_from_fdt n h fd st).state.trace = st.trace ++ evs ∧
      (((do_memory_from_fdt n h fd st).rv? = some false ∧
          (evs = [] ∨ (∃ sz, evs = [Event.malloc sz 0])
            ∨ (∃ sz b, b ≠ 0 ∧ evs = [Event.malloc sz b, Event.free b])
            ∨ (∃ sz b f a m, b ≠ 0 ∧
                evs = [Event.malloc sz b, Event.free b, Event.printf f a, Event.malloc m 0])))
        ∨ ((do_memory_from_fdt n h fd st).rv? = some true ∧
            (do_memory_from_fdt n h fd st).state.efi_map_hdr ≠ 0 ∧ h.malloc_buf ≠ 0 ∧
            ∃ sz f a m z l,
              evs = [Event.malloc sz h.malloc_buf, Event.free h.malloc_buf, Event.printf f a,
                Event.malloc m (do_memory_from_fdt n h fd st).state.efi_map_hdr,
                Event.bzero z l])
        ∨ ((do_memory_from_fdt n h fd st).rv? = none ∧
            h.malloc_map ≠ 0 ∧ h.malloc_buf ≠ 0 ∧
            ∃ sz f a m z l,
              evs = [Event.malloc sz h.malloc_buf, Event.free h.malloc_buf, Event.printf f a,
                Event.malloc m h.malloc_map, Event.bzero z l])) := by
  by_cases hs : h.fstat_rv fd < 0
  · exact ⟨[], by simp [do_memory_from_fdt, hs, Outcome.state],
      Or.inl ⟨by simp [do_memory_from_fdt, hs, Outcome.rv?], Or.inl rfl⟩⟩
  by_cases hb : h.malloc_buf = 0
  · exact ⟨[Event.malloc (to_size_t (h.st_size fd)) 0],
      by simp [do_memory_from_fdt, hs, hb, State.emit, Outcome.state],
      Or.inl ⟨by simp [do_memory_from_fdt, hs, hb, Outcome.rv?], Or.inr (Or.inl ⟨_, rfl⟩)⟩⟩
  have early : ∀ r : Outcome Bool, r.rv? = some false →
      r.state.trace = st.trace ++ [Event.malloc (to_size_t (h.st_size fd)) h.malloc_buf,
        Event.free h.malloc_buf] →
      ∃ evs, r.state.trace = st.trace ++ evs ∧
      ((r.rv? = some false ∧
          (evs = [] ∨ (∃ sz, evs = [Event.malloc sz 0])
            ∨ (∃ sz b, b ≠ 0 ∧ evs = [Event.malloc sz b, Event.free b])
            ∨ (∃ sz b f a m, b ≠ 0 ∧
                evs = [Event.malloc sz b, Event.free b, Event.printf f a, Event.malloc m 0])))
        ∨ (r.rv? = some true ∧ r.state.efi_map_hdr ≠ 0 ∧ h.malloc_buf ≠ 0 ∧
            ∃ sz f a m z l,
              evs = [Event.malloc sz h.malloc_buf, Event.free h.malloc_buf, Event.printf f a,
                Event.malloc m r.state.efi_map_hdr, Event.bzero z l])
        ∨ (r.rv? = none ∧ h.malloc_map ≠ 0 ∧ h.malloc_buf ≠ 0 ∧
            ∃ sz f a m z l,
              evs = [Event.malloc sz h.malloc_buf, Event.free h.malloc_buf, Event.printf f a,
                Event.malloc m h.malloc_map, Event.bzero z l])) := by
    intro r hr ht
    exact ⟨_, ht, Or.inl ⟨hr, Or.inr (Or.inr (Or.inl ⟨_, _, hb, rfl⟩))⟩⟩
  by_cases hl : to_int (h.read_rv fd) ≤ 0
  · apply early <;>
      simp [do_memory_from_fdt, hs, hb, hl, errout, State.emit, Outcome.rv?, Outcome.state]
  by_cases ho : h.fdt_path_offset "/chosen" ≤ 0
  · apply early <;>
      simp [do_memory_from_fdt, hs, hb, hl, ho, errout, State.emit, Outcome.rv?, Outcome.state]
  cases g1 : h.fdt_getprop (h.fdt_path_offset "/chosen") "linux,uefi-system-table" with
  | none =>
    apply early <;>
      simp [do_memory_from_fdt, hs, hb, hl, ho, g1, errout, State.emit, Outcome.rv?,
        Outcome.state]
  | some p1 =>
  cases g2 : h.fdt_getprop (h.fdt_path_offset "/chosen") "linux,uefi-mmap-desc-ver" with
  | none =>
    apply early <;>
      simp [do_memory_from_fdt, hs, hb, hl, ho, g1, g2, errout, State.emit, Outcome.rv?,
        Outcome.state]
  | some p2 =>
  cases g3 : h.fdt_getprop (h.fdt_path_offset "/chosen") "linux,uefi-mmap-desc-size" with
  | none =>
    apply early <;>
      simp [do_memory_from_fdt, hs, hb, hl, ho, g1, g2, g3, errout, State.emit, Outcome.rv?,
        Outcome.state]
  | some p3 =>
  cases g4 : h.fdt_getprop (h.fdt_path_offset "/chosen") "linux,uefi-mmap-size" with
  | none =>
    apply early <;>
      simp [do_memory_from_fdt, hs, hb, hl, ho, g1, g2, g3, g4, errout, State.emit,
        Outcome.rv?, Outcome.state]
  | some p4 =>
  cases g5 : h.fdt_getprop (h.fdt_path_offset "/chosen") "linux,uefi-mmap-start" with
  | none =>
    apply early <;>
      simp [do_memory_from_fdt, hs, hb, hl, ho, g1, g2, g3, g4, g5, errout, State.emit,
        Outcome.rv?, Outcome.state]
  | some p5 =>
  by_cases hm : h.malloc_map = 0
  · refine ⟨[Event.malloc (to_size_t (h.st_size fd)) h.malloc_buf, Event.free h.malloc_buf,
        Event.printf "UEFI MMAP: Ver %d Ent Size %d Tot Size %d PA %#lx\n"
          [fdt32_to_cpu (load32 h.buf p2), fdt32_to_cpu (load32 h.buf p3),
           fdt32_to_cpu (load32 h.buf p4), fdt64_to_cpu (load64 h.buf p5)],
        Event.malloc ((fdt32_to_cpu (load32 h.buf p4) + efisz n) % 2 ^ 32) 0], ?_, Or.inl ⟨?_, ?_⟩⟩
    · simp [do_memory_from_fdt, hs, hb, hl, ho, g1, g2, g3, g4, g5, hm, State.emit,
        Outcome.state]
    · simp [do_memory_from_fdt, hs, hb, hl, ho, g1, g2, g3, g4, g5, hm, Outcome.rv?]
    · exact Or.inr (Or.inr (Or.inr ⟨_, _, _, _, _, hb, rfl⟩))
  by_cases hc : fdt32_to_cpu (load32 h.buf p4) = 0
      ∨ (h.malloc_map ≤ h.malloc_map + efisz n
        ∧ h.malloc_map + efisz n + fdt32_to_cpu (load32 h.buf p4)
            ≤ h.malloc_map + (fdt32_to_cpu (load32 h.buf p4) + efisz n) % 2 ^ 32)
  · by_cases hh : n ≤ (fdt32_to_cpu (load32 h.buf p4) + efisz n) % 2 ^ 32
    · have hbz : fdt32_to_cpu (load32 h.buf p4) = 0
          ∨ efisz n + fdt32_to_cpu (load32 h.buf p4)
              ≤ (fdt32_to_cpu (load32 h.buf p4) + efisz n) % 2 ^ 32 := by
        rcases hc with hz | ⟨_, hz⟩
        · exact Or.inl hz
        · exact Or.inr (by omega)
      rw [do_memory_from_fdt_ok n h fd st p1 p2 p3 p4 p5 hs hb hl ho g1 g2 g3 g4 g5 hm hbz hh]
      exact ⟨_, rfl, Or.inr (Or.inl ⟨rfl, hm, hb, _, _, _, _, _, _, rfl⟩)⟩
    · unfold do_memory_from_fdt
      simp only [hs, hb, hl, ho, g1, g2, g3, g4, g5, hm, hc, hh, if_false, if_true, bzero,
        State.store_hdr, State.emit, List.append_assoc, List.singleton_append,
        List.cons_append, List.nil_append]
      exact ⟨_, rfl, Or.inr (Or.inr ⟨rfl, hm, hb, _, _, _, _, _, _, rfl⟩)⟩
  · unfold do_memory_from_fdt
    simp only [hs, hb, hl, ho, g1, g2, g3, g4, g5, hm, hc, if_false, bzero, State.emit,
      List.append_assoc, List.singleton_append, List.cons_append, List.nil_append]
    exact ⟨_, rfl, Or.inr (Or.inr ⟨rfl, hm, hb, _, _, _, _, _, _, rfl⟩)⟩

end Kboot

namespace Kboot

/-! ## kboot_get_phys_load_segment: helper facts -/

theorem kboot_get_phys_load_segment_cached (SR : Nat)
    (fa : List Event → Nat → Nat → Nat → Nat) (st : State) (hs : st.s ≠ 0) :
    kboot_get_phys_load_segment SR fa st = (st.s, st) := by
  simp [kboot_get_phys_load_segment, hs]

theorem kboot_get_phys_load_segment_memo (SR : Nat)
    (fa : List Event → Nat → Nat → Nat → Nat) (st : State) :
    (kboot_get_phys_load_segment SR fa st).2.s = (kboot_get_phys_load_segment SR fa st).1
      ∧ (kboot_get_phys_load_segment SR fa st).2.s ≠ 0 := by
  unfold kboot_get_phys_load_segment
  by_cases hs : st.s = 0
  · by_cases ha : fa st.trace KERN_ALIGN HOLE_SIZE SR = 0
    · simp [hs, ha, State.emit]
    · simp [hs, ha, State.emit]
  · simp [hs]

theorem repeat_calls_cached (SR : Nat) (fa : List Event → Nat → Nat → Nat → Nat) (n : Nat)
    (st : State) (hs : st.s ≠ 0) :
    repeat_calls SR fa n st = (List.replicate n st.s, st) := by
  induction n with
  | zero => rfl
  | succ k ih =>
    simp only [repeat_calls, kboot_get_phys_load_segment_cached SR fa st hs, ih,
      List.replicate_succ]

end Kboot

namespace Kboot

/-! ## Firmware memory-map recovery -/

/-- C1: with `sizeof(struct efi_map_header) = 24` and a device tree whose five
properties are present and whose `linux,uefi-mmap-size` is `0xFFFFFFF0`, both
allocations succeeding, the size passed to `malloc` for the staged buffer is
`(0xFFFFFFF0 + 32) mod 2^32 = 16`, not `round_up(24, 16) + 0xFFFFFFF0`; the
zero fill of `0xFFFFFFF0` bytes from offset 32 leaves that 16-byte buffer, so
`do_memory_from_fdt` does not return true and publishes no header. -/
theorem do_memory_from_fdt_alloc_size_wraps :
    (do_memory_from_fdt 24
        (sample_host (sample_blob 0x1234 1 40 0xFFFFFFF0 0x80000000) five_props) 3
        initial_state).rv? = none
    ∧ (do_memory_from_fdt 24
        (sample_host (sample_blob 0x1234 1 40 0xFFFFFFF0 0x80000000) five_props) 3
        initial_state).state.trace =
        [Event.malloc 28 4096, Event.free 4096,
         Event.printf "UEFI MMAP: Ver %d Ent Size %d Tot Size %d PA %#lx\n"
           [1, 40, 0xFFFFFFF0, 0x80000000],
         Event.malloc 16 8192, Event.bzero (8192 + 32) 0xFFFFFFF0]
    ∧ (0xFFFFFFF0 + efisz 24) % 2 ^ 32 = 16
    ∧ round_up 24 16 + 0xFFFFFFF0 = 4294967312
    ∧ (do_memory_from_fdt 24
        (sample_host (sample_blob 0x1234 1 40 0xFFFFFFF0 0x80000000) five_props) 3
        initial_state).state.efi_map_hdr = 0
    ∧ (do_memory_from_fdt 24
        (sample_host (sample_blob 0x1234 1 40 0xFFFFFFF0 0x80000000) five_props) 3
        initial_state).state.efi_map_size = 0 := by
  decide

/-- C2: on a device tree that has `linux,uefi-system-table` but lacks
`linux,uefi-mmap-desc-ver`, and on one with all five properties when the second
`malloc` fails, `do_memory_from_fdt` returns false but `efi_systbl_phys` has
changed from its pre-call value 0 to the decoded address `0x1234`; the other
three published values are unchanged. -/
theorem do_memory_from_fdt_failure_overwrites_systbl :
    bookkeeping initial_state = (0, 0, 0, 0)
    ∧ (do_memory_from_fdt 24
        (sample_host (sample_blob 0x1234 1 40 0x1000 0x80000000) systbl_only) 3
        initial_state).rv? = some false
    ∧ bookkeeping (do_memory_from_fdt 24
        (sample_host (sample_blob 0x1234 1 40 0x1000 0x80000000) systbl_only) 3
        initial_state).state = (0x1234, 0, 0, 0)
    ∧ (do_memory_from_fdt 24
        { sample_host (sample_blob 0x1234 1 40 0x1000 0x80000000) five_props with
          malloc_map := 0 } 3
        initial_state).rv? = some false
    ∧ bookkeeping (do_memory_from_fdt 24
        { sample_host (sample_blob 0x1234 1 40 0x1000 0x80000000) five_props with
          malloc_map := 0 } 3
        initial_state).state = (0x1234, 0, 0, 0) := by
  decide

/-- C6: if the five `/chosen` properties hold the big-endian encodings of a
64-bit `T`, 32-bit `V`, `E`, `S` and a 64-bit `P`, a call of
`do_memory_from_fdt` that returns true leaves `efi_systbl_phys = T`,
`efi_map_phys_src = P` and the staged header with `descriptor_version = V`,
`descriptor_size = E`, `memory_size = S`. -/
theorem do_memory_from_fdt_round_trip (n : Nat) (h : Host) (fd : Int) (st : State)
    (T V E S P p1 p2 p3 p4 p5 : Nat)
    (hT : T < 2 ^ 64) (hV : V < 2 ^ 32) (hE : E < 2 ^ 32) (hS : S < 2 ^ 32) (hP : P < 2 ^ 64)
    (g1 : h.fdt_getprop (h.fdt_path_offset "/chosen") "linux,uefi-system-table" = some p1)
    (g2 : h.fdt_getprop (h.fdt_path_offset "/chosen") "linux,uefi-mmap-desc-ver" = some p2)
    (g3 : h.fdt_getprop (h.fdt_path_offset "/chosen") "linux,uefi-mmap-desc-size" = some p3)
    (g4 : h.fdt_getprop (h.fdt_path_offset "/chosen") "linux,uefi-mmap-size" = some p4)
    (g5 : h.fdt_getprop (h.fdt_path_offset "/chosen") "linux,uefi-mmap-start" = some p5)
    (e1 : bytes_at h.buf p1 8 = be64_encode T) (e2 : bytes_at h.buf p2 4 = be32_encode V)
    (e3 : bytes_at h.buf p3 4 = be32_encode E) (e4 : bytes_at h.buf p4 4 = be32_encode S)
    (e5 : bytes_at h.buf p5 8 = be64_encode P)
    (hok : (do_memory_from_fdt n h fd st).rv? = some true) :
    (do_memory_from_fdt n h fd st).state.efi_systbl_phys = T
    ∧ (do_memory_from_fdt n h fd st).state.efi_map_phys_src = P
    ∧ ((do_memory_from_fdt n h fd st).state.hdr
        (do_memory_from_fdt n h fd st).state.efi_map_hdr).descriptor_version = V
    ∧ ((do_memory_from_fdt n h fd st).state.hdr
        (do_memory_from_fdt n h fd st).state.efi_map_hdr).descriptor_size = E
    ∧ ((do_memory_from_fdt n h fd st).state.hdr
        (do_memory_from_fdt n h fd st).state.efi_map_hdr).memory_size = S := by
  obtain ⟨hs, hb, hl, ho, hm, q1, q2, q3, q4, q5, k1, k2, k3, k4, k5, hbz, hh⟩ :=
    do_memory_from_fdt_true n h fd st hok
  have i1 : q1 = p1 := Option.some.inj (k1.symm.trans g1)
  have i2 : q2 = p2 := Option.some.inj (k2.symm.trans g2)
  have i3 : q3 = p3 := Option.some.inj (k3.symm.trans g3)
  have i4 : q4 = p4 := Option.some.inj (k4.symm.trans g4)
  have i5 : q5 = p5 := Option.some.inj (k5.symm.trans g5)
  subst i1 i2 i3 i4 i5
  rw [do_memory_from_fdt_ok n h fd st q1 q2 q3 q4 q5 hs hb hl ho g1 g2 g3 g4 g5 hm hbz hh]
  simp only [Outcome.state, if_true]
  exact ⟨fdt64_to_cpu_load64 _ _ _ hT e1, fdt64_to_cpu_load64 _ _ _ hP e5,
    fdt32_to_cpu_load32 _ _ _ hV e2, fdt32_to_cpu_load32 _ _ _ hE e3,
    fdt32_to_cpu_load32 _ _ _ hS e4⟩

/-- Witness of C6: the sample blob encoding `0x1234, 1, 40, 0x1000,
0x80000000` is read back exactly. -/
theorem do_memory_from_fdt_round_trip_witness :
    (do_memory_from_fdt 24
        (sample_host (sample_blob 0x1234 1 40 0x1000 0x80000000) five_props) 3
        initial_state).state.efi_systbl_phys = 0x1234
    ∧ (do_memory_from_fdt 24
        (sample_host (sample_blob 0x1234 1 40 0x1000 0x80000000) five_props) 3
        initial_state).state.efi_map_phys_src = 0x80000000
    ∧ ((do_memory_from_fdt 24
        (sample_host (sample_blob 0x1234 1 40 0x1000 0x80000000) five_props) 3
        initial_state).state.hdr
        (do_memory_from_fdt 24
          (sample_host (sample_blob 0x1234 1 40 0x1000 0x80000000) five_props) 3
          initial_state).state.efi_map_hdr).descriptor_version = 1
    ∧ ((do_memory_from_fdt 24
        (sample_host (sample_blob 0x1234 1 40 0x1000 0x80000000) five_props) 3
        initial_state).state.hdr
        (do_memory_from_fdt 24
          (sample_host (sample_blob 0x1234 1 40 0x1000 0x80000000) five_props) 3
          initial_state).state.efi_map_hdr).descriptor_size = 40
    ∧ ((do_memory_from_fdt 24
        (sample_host (sample_blob 0x1234 1 40 0x1000 0x80000000) five_props) 3
        initial_state).state.hdr
        (do_memory_from_fdt 24
          (sample_host (sample_blob 0x1234 1 40 0x1000 0x80000000) five_props) 3
          initial_state).state.efi_map_hdr).memory_size = 0x1000 :=
  do_memory_from_fdt_round_trip 24
    (sample_host (sample_blob 0x1234 1 40 0x1000 0x80000000) five_props) 3 initial_state
    0x1234 1 40 0x1000 0x80000000 0 8 12 16 20
    (by decide) (by decide) (by decide) (by decide) (by decide)
    (by decide) (by decide) (by decide) (by decide) (by decide)
    (by decide) (by decide) (by decide) (by decide) (by decide) (by decide)

theorem le_round_up_16 (n : Nat) : n ≤ round_up n 16 ∧ round_up n 16 ≤ n + 15 := by
  unfold round_up
  omega

/-- C7: when all five properties are present, both allocations succeed and
`linux,uefi-mmap-size` decodes to 0, `do_memory_from_fdt` returns true, the
staged header has `memory_size = 0`, the published `efi_map_size` and the
size passed to `malloc` are exactly `round_up(sizeof(struct efi_map_header),
16)`, and the zero fill has length 0. -/
theorem do_memory_from_fdt_zero_map_size (n : Nat) (h : Host) (fd : Int) (st : State)
    (p1 p2 p3 p4 p5 : Nat) (hn : n ≤ 2 ^ 32 - 16)
    (hs : ¬ h.fstat_rv fd < 0) (hb : h.malloc_buf ≠ 0) (hl : ¬ to_int (h.read_rv fd) ≤ 0)
    (ho : ¬ h.fdt_path_offset "/chosen" ≤ 0)
    (g1 : h.fdt_getprop (h.fdt_path_offset "/chosen") "linux,uefi-system-table" = some p1)
    (g2 : h.fdt_getprop (h.fdt_path_offset "/chosen") "linux,uefi-mmap-desc-ver" = some p2)
    (g3 : h.fdt_getprop (h.fdt_path_offset "/chosen") "linux,uefi-mmap-desc-size" = some p3)
    (g4 : h.fdt_getprop (h.fdt_path_offset "/chosen") "linux,uefi-mmap-size" = some p4)
    (g5 : h.fdt_getprop (h.fdt_path_offset "/chosen") "linux,uefi-mmap-start" = some p5)
    (hm : h.malloc_map ≠ 0)
    (hz : fdt32_to_cpu (load32 h.buf p4) = 0) :
    (do_memory_from_fdt n h fd st).rv? = some true
    ∧ ((do_memory_from_fdt n h fd st).state.hdr
        (do_memory_from_fdt n h fd st).state.efi_map_hdr).memory_size = 0
    ∧ (do_memory_from_fdt n h fd st).state.efi_map_size = round_up n 16
    ∧ ∃ pre, (do_memory_from_fdt n h fd st).state.trace =
        st.trace ++ pre ++ [Event.malloc (round_up n 16) h.malloc_map,
          Event.bzero (h.malloc_map + round_up n 16) 0] := by
  have hr := efisz_eq_round_up n hn
  have hlt := efisz_lt n
  have hmod : (0 + efisz n) % 2 ^ 32 = round_up n 16 := by
    rw [Nat.zero_add, Nat.mod_eq_of_lt hlt, hr]
  have hh : n ≤ (fdt32_to_cpu (load32 h.buf p4) + efisz n) % 2 ^ 32 := by
    rw [hz, hmod]
    exact (le_round_up_16 n).1
  rw [do_memory_from_fdt_ok n h fd st p1 p2 p3 p4 p5 hs hb hl ho g1 g2 g3 g4 g5 hm
    (Or.inl hz) hh]
  simp only [Outcome.rv?, Outcome.state, hz, hmod, if_true, true_and]
  rw [hr]
  exact ⟨[Event.malloc (to_size_t (h.st_size fd)) h.malloc_buf, Event.free h.malloc_buf,
    Event.printf "UEFI MMAP: Ver %d Ent Size %d Tot Size %d PA %#lx\n"
      [fdt32_to_cpu (load32 h.buf p2), fdt32_to_cpu (load32 h.buf p3), 0,
       fdt64_to_cpu (load64 h.buf p5)]], by simp⟩

/-- Witness of C7: the sample device tree with map size 0 and a 24-byte
header stages a 32-byte buffer. -/
theorem do_memory_from_fdt_zero_map_size_witness :
    (do_memory_from_fdt 24
        (sample_host (sample_blob 0x1234 1 40 0 0x80000000) five_props) 3
        initial_state).rv? = some true
    ∧ ((do_memory_from_fdt 24
          (sample_host (sample_blob 0x1234 1 40 0 0x80000000) five_props) 3
          initial_state).state.hdr
        (do_memory_from_fdt 24
          (sample_host (sample_blob 0x1234 1 40 0 0x80000000) five_props) 3
          initial_state).state.efi_map_hdr).memory_size = 0
    ∧ (do_memory_from_fdt 24
        (sample_host (sample_blob 0x1234 1 40 0 0x80000000) five_props) 3
        initial_state).state.efi_map_size = round_up 24 16 :=
  (fun w => ⟨w.1, w.2.1, w.2.2.1⟩)
    (do_memory_from_fdt_zero_map_size 24
      (sample_host (sample_blob 0x1234 1 40 0 0x80000000) five_props) 3 initial_state
      0 8 12 16 20 (by decide) (by decide) (by decide) (by decide) (by decide)
      (by decide) (by decide) (by decide) (by decide) (by decide) (by decide) (by decide))

/-- C8: replaying the `malloc`/`free` calls of one `do_memory_from_fdt` on
an empty set of live allocations never meets a double or wild free; when the
call returns false no allocation is live at return; when it returns true the
raw device-tree buffer was allocated first and freed exactly once, and the
only live allocation is the staged buffer published in `efi_map_hdr`.  On the
remaining path, where a write leaves the staged buffer, the raw buffer has
likewise been freed exactly once and only the staged buffer is live. -/
theorem do_memory_from_fdt_allocations (n : Nat) (h : Host) (fd : Int) (st : State) :
    ∃ evs, (do_memory_from_fdt n h fd st).state.trace = st.trace ++ evs ∧
      (((do_memory_from_fdt n h fd st).rv? = some false ∧ heap_run evs [] = some [])
        ∨ ((do_memory_from_fdt n h fd st).rv? = some true
            ∧ heap_run evs [] = some [(do_memory_from_fdt n h fd st).state.efi_map_hdr]
            ∧ (∃ sz, evs.head? = some (Event.malloc sz h.malloc_buf))
            ∧ h.malloc_buf ≠ 0
            ∧ evs.count (Event.free h.malloc_buf) = 1)
        ∨ ((do_memory_from_fdt n h fd st).rv? = none
            ∧ heap_run evs [] = some [h.malloc_map]
            ∧ (∃ sz, evs.head? = some (Event.malloc sz h.malloc_buf))
            ∧ h.malloc_buf ≠ 0
            ∧ evs.count (Event.free h.malloc_buf) = 1)) := by
  obtain ⟨evs, ht, hc⟩ := do_memory_from_fdt_trace n h fd st
  refine ⟨evs, ht, ?_⟩
  rcases hc with ⟨hf, hc⟩ | ⟨htrue, hne, hb, sz, f, a, m, z, l, he⟩
    | ⟨hnone, hm, hb, sz, f, a, m, z, l, he⟩
  · left
    refine ⟨hf, ?_⟩
    rcases hc with he | ⟨sz, he⟩ | ⟨sz, b, hb, he⟩ | ⟨sz, b, f, a, m, hb, he⟩
    · subst he
      rfl
    · subst he
      simp [heap_run]
    · subst he
      simp [heap_run, hb]
    · subst he
      simp [heap_run, hb]
  · right
    left
    subst he
    refine ⟨htrue, ?_, ⟨sz, rfl⟩, hb, ?_⟩
    · simp [heap_run, hb, hne]
    · simp [List.count_cons]
  · right
    right
    subst he
    refine ⟨hnone, ?_, ⟨sz, rfl⟩, hb, ?_⟩
    · simp [heap_run, hb, hm]
    · simp [List.count_cons]

end Kboot

namespace Kboot

theorem do_memory_from_fdt_no_enumeration (n : Nat) (h : Host) (fd : Int) (st : State) :
    ∃ evs, (do_memory_from_fdt n h fd st).state.trace = st.trace ++ evs
      ∧ Event.populate_avail_from_iomem ∉ evs ∧ Event.print_avail ∉ evs := by
  obtain ⟨evs, ht, hc⟩ := do_memory_from_fdt_trace n h fd st
  refine ⟨evs, ht, ?_⟩
  rcases hc with ⟨_, hc⟩ | ⟨_, _, _, sz, f, a, m, z, l, he⟩ | ⟨_, _, _, sz, f, a, m, z, l, he⟩
  · rcases hc with he | ⟨sz, he⟩ | ⟨sz, b, _, he⟩ | ⟨sz, b, f, a, m, _, he⟩ <;>
      subst he <;> simp
  · subst he
    simp
  · subst he
    simp

/-- Whatever `open` answers: if firmware-map recovery does not fault,
`enumerate_memory_arch` returns true and its external calls end with one call
of `populate_avail_from_iomem` followed by one call of `print_avail`, neither
called earlier; if recovery faults, so does `enumerate_memory_arch`, with
neither called. -/
theorem enumerate_memory_arch_enumerates_or_faults (n : Nat) (h : Host) (st : State) :
    ((enumerate_memory_arch n h st).rv? = some true
      ∧ ∃ pre, (enumerate_memory_arch n h st).state.trace =
          st.trace ++ pre ++ [Event.populate_avail_from_iomem, Event.print_avail]
        ∧ Event.populate_avail_from_iomem ∉ pre ∧ Event.print_avail ∉ pre)
    ∨ ((enumerate_memory_arch n h st).rv? = none
      ∧ h.open_rv ≠ -1
      ∧ (do_memory_from_fdt n h h.open_rv
          (st.emit (Event.open_file "host:/sys/firmware/fdt" O_RDONLY))).rv? = none
      ∧ ∃ pre, (enumerate_memory_arch n h st).state.trace = st.trace ++ pre
        ∧ Event.populate_avail_from_iomem ∉ pre ∧ Event.print_avail ∉ pre) := by
  unfold enumerate_memory_arch
  by_cases hfd : h.open_rv = -1
  · left
    refine ⟨by simp [hfd, Outcome.rv?],
      [Event.open_file "host:/sys/firmware/fdt" O_RDONLY,
        Event.printf "Could not obtain UEFI memory tables, expect failure\n" []], ?_, ?_, ?_⟩
    · simp [hfd, State.emit, Outcome.state]
    · simp
    · simp
  · obtain ⟨evs, ht, hp, hq⟩ := do_memory_from_fdt_no_enumeration n h h.open_rv
      (st.emit (Event.open_file "host:/sys/firmware/fdt" O_RDONLY))
    cases hr : do_memory_from_fdt n h h.open_rv
        (st.emit (Event.open_file "host:/sys/firmware/fdt" O_RDONLY)) with
    | fault st1 =>
      right
      rw [hr] at ht
      simp only [Outcome.state, State.emit_trace] at ht
      refine ⟨by simp [hfd, hr, Outcome.rv?], hfd, rfl,
        [Event.open_file "host:/sys/firmware/fdt" O_RDONLY] ++ evs, ?_, ?_, ?_⟩
      · simp [hfd, hr, Outcome.state, ht]
      · simp [hp]
      · simp [hq]
    | returned rv st1 =>
      left
      rw [hr] at ht
      simp only [Outcome.state, State.emit_trace] at ht
      cases rv with
      | true =>
        refine ⟨by simp [hfd, hr, Outcome.rv?],
          [Event.open_file "host:/sys/firmware/fdt" O_RDONLY] ++ evs
            ++ [Event.close h.open_rv], ?_, ?_, ?_⟩
        · simp [hfd, hr, Outcome.state, State.emit_trace, ht]
        · simp [hp]
        · simp [hq]
      | false =>
        refine ⟨by simp [hfd, hr, Outcome.rv?],
          [Event.open_file "host:/sys/firmware/fdt" O_RDONLY] ++ evs
            ++ [Event.close h.open_rv,
              Event.printf "Could not obtain UEFI memory tables, expect failure\n" []],
          ?_, ?_, ?_⟩
        · simp [hfd, hr, Outcome.state, State.emit_trace, ht]
        · simp [hp]
        · simp [hq]

/-- C5: with a 24-byte header and a device-tree file that opens and holds all
five properties with `linux,uefi-mmap-size = 0xFFFFFFF0`, both allocations
succeeding, `enumerate_memory_arch` does not return: recovery asks `malloc`
for 16 bytes, the zero fill of `0xFFFFFFF0` bytes leaves that buffer, and
neither `populate_avail_from_iomem` nor `print_avail` is called. -/
theorem enumerate_memory_arch_faults_on_wrapped_size :
    (enumerate_memory_arch 24
        (sample_host (sample_blob 0x1234 1 40 0xFFFFFFF0 0x80000000) five_props)
        initial_state).rv? = none
    ∧ (enumerate_memory_arch 24
        (sample_host (sample_blob 0x1234 1 40 0xFFFFFFF0 0x80000000) five_props)
        initial_state).state.trace =
        [Event.open_file "host:/sys/firmware/fdt" O_RDONLY,
         Event.malloc 28 4096, Event.free 4096,
         Event.printf "UEFI MMAP: Ver %d Ent Size %d Tot Size %d PA %#lx\n"
           [1, 40, 0xFFFFFFF0, 0x80000000],
         Event.malloc 16 8192, Event.bzero (8192 + 32) 0xFFFFFFF0]
    ∧ Event.populate_avail_from_iomem ∉ (enumerate_memory_arch 24
        (sample_host (sample_blob 0x1234 1 40 0xFFFFFFF0 0x80000000) five_props)
        initial_state).state.trace
    ∧ Event.print_avail ∉ (enumerate_memory_arch 24
        (sample_host (sample_blob 0x1234 1 40 0xFFFFFFF0 0x80000000) five_props)
        initial_state).state.trace := by
  decide

end Kboot

namespace Kboot

/-! ## Load address selection -/

/-- C3: on a call with the memo `s` zero, let `a` be the answer of
`first_avail(2 MiB, 64 MiB, SYSTEM_RAM)`.  The allocator is queried once with
those arguments; if `a` is nonzero the function returns `a`, caches it and
prints nothing; if `a` is zero it returns and caches
`0x40000000 | 0x4200000 = 0x44200000` and prints the fallback diagnostic. -/
theorem kboot_get_phys_load_segment_first_call (SR : Nat)
    (fa : List Event → Nat → Nat → Nat → Nat) (st : State) (hs : st.s = 0) :
    (fa st.trace 2097152 67108864 SR ≠ 0 →
        (kboot_get_phys_load_segment SR fa st).1 = fa st.trace 2097152 67108864 SR
        ∧ (kboot_get_phys_load_segment SR fa st).2.s = fa st.trace 2097152 67108864 SR
        ∧ (kboot_get_phys_load_segment SR fa st).2.trace =
            st.trace ++ [Event.first_avail 2097152 67108864 SR])
    ∧ (fa st.trace 2097152 67108864 SR = 0 →
        (kboot_get_phys_load_segment SR fa st).1 = 0x44200000
        ∧ (kboot_get_phys_load_segment SR fa st).2.s = 0x44200000
        ∧ (kboot_get_phys_load_segment SR fa st).2.trace =
            st.trace ++ [Event.first_avail 2097152 67108864 SR,
              Event.printf "Falling back to crazy address %#lx\n" [0x44200000]]) := by
  have hK : KERN_ALIGN = 2097152 := by decide
  have hH : HOLE_SIZE = 67108864 := by decide
  have hF : (0x40000000 ||| 0x4200000 : Nat) = 0x44200000 := by decide
  unfold kboot_get_phys_load_segment
  rw [hK, hH, hF]
  constructor
  · intro ha
    simp [hs, ha, State.emit]
  · intro ha
    simp [hs, ha, State.emit]

/-- Witness of C3: with an allocator that answers zero, the first call from
the initial state returns the fallback address. -/
theorem kboot_get_phys_load_segment_first_call_witness :
    (kboot_get_phys_load_segment 1 (fun _ _ _ _ => 0) initial_state).1 = 0x44200000
    ∧ (kboot_get_phys_load_segment 1 (fun _ _ _ _ => 0) initial_state).2.s = 0x44200000
    ∧ (kboot_get_phys_load_segment 1 (fun _ _ _ _ => 0) initial_state).2.trace =
        initial_state.trace ++ [Event.first_avail 2097152 67108864 1,
          Event.printf "Falling back to crazy address %#lx\n" [0x44200000]] :=
  (kboot_get_phys_load_segment_first_call 1 (fun _ _ _ _ => 0) initial_state rfl).2 rfl

/-- C4: after a call of `kboot_get_phys_load_segment` the memo is nonzero and
equal to the value returned; any number of further calls, with any allocator,
return that same value and leave the whole state, the memo and the log of
external calls included, as it was: `first_avail` is not queried again. -/
theorem kboot_get_phys_load_segment_idempotent (SR : Nat)
    (fa fa2 : List Event → Nat → Nat → Nat → Nat) (st : State) (n : Nat) :
    (kboot_get_phys_load_segment SR fa st).2.s ≠ 0
    ∧ (kboot_get_phys_load_segment SR fa st).2.s = (kboot_get_phys_load_segment SR fa st).1
    ∧ repeat_calls SR fa2 n (kboot_get_phys_load_segment SR fa st).2
        = (List.replicate n (kboot_get_phys_load_segment SR fa st).1,
           (kboot_get_phys_load_segment SR fa st).2) := by
  obtain ⟨hmemo, hne⟩ := kboot_get_phys_load_segment_memo SR fa st
  refine ⟨hne, hmemo, ?_⟩
  rw [repeat_calls_cached SR fa2 n _ hne, hmemo]

end Kboot
